import Mathlib

/-!
Verification of the zarinpal payment-gateway client library.

This file gives a shallow embedding of the library's core:
the result-code taxonomy (src/results/result_code.rs), the envelope
decoder (src/results/__private.rs, src/results/mod.rs), the error
model with its validation-list merge (src/error.rs), the method
contract layer (src/methods/*.rs, src/lib.rs) and the client
constructors with their UUID handling (src/lib.rs).

Rust `i64` is modelled as `Int` (no arithmetic near the bounds occurs),
`u64` as `Nat`, `String` as Lean `String` (or `List Char` where kernel
evaluation matters), `Option` as `Option`, `HashMap` as an association
list read through a first-match lookup, and JSON values as an explicit
inductive type. Code that can panic (`unreachable!`, `unwrap`) is
embedded with an explicit `panic` outcome so that the panic is
observable rather than hidden.
-/

set_option autoImplicit false

namespace ZarinpalLib

/-- `ResultCode`: the result code of a request made to the api, from
src/results/result_code.rs. The named variants mirror the Rust enum in
declaration order; `Unknown` carries the raw wire integer. -/
inductive ResultCode where
  | Validation
  | InvalidTerminalInfo
  | InactiveTerminal
  | ToManyAttempts
  | SuspendTerminal
  | TerminalLevelToLow
  | TerminalBlueLevelRestriction
  | Success
  | FloatingWagesNotAllowed
  | TerminalCantAcceptWages
  | TotalFloatingWagesHigherThanMaxAmount
  | InvalidWagesFloating
  | TotalFixedWagesHigherThanMaxAmount
  | TooManyFloutingWagesPartition
  | FloatingWagesAmountTooLow
  | OneOrMoreIBansAreInactive
  | IBanNotSetInShaparak
  | ErrorInWages
  | InvalidExpireInValue
  | InvalidSeasonUnmatchedAmounts
  | InvalidSeasonNoActivePayment
  | InvalidSeason
  | InvalidSeasonInvalidMerchantId
  | InvalidAuthority
  | Verified
  | Unknown (raw : Int)
  deriving Repr, DecidableEq

/-- Decode of a wire integer into a `ResultCode`: the `impl From<i64>
for ResultCode` of src/results/result_code.rs (lines 79-111). The Rust
`match` on the integer is rendered as the corresponding chain of
equality tests, in source order, with the catch-all arm producing
`Unknown`. -/
def ResultCode.fromI64 (value : Int) : ResultCode :=
  if value = -9 then .Validation
  else if value = -10 then .InvalidTerminalInfo
  else if value = -11 then .InactiveTerminal
  else if value = -12 then .ToManyAttempts
  else if value = -15 then .SuspendTerminal
  else if value = -16 then .TerminalLevelToLow
  else if value = -17 then .TerminalBlueLevelRestriction
  else if value = 100 then .Success
  else if value = -30 then .FloatingWagesNotAllowed
  else if value = -31 then .TerminalCantAcceptWages
  else if value = -32 then .TotalFloatingWagesHigherThanMaxAmount
  else if value = -33 then .InvalidWagesFloating
  else if value = -34 then .TotalFixedWagesHigherThanMaxAmount
  else if value = -35 then .TooManyFloutingWagesPartition
  else if value = -36 then .FloatingWagesAmountTooLow
  else if value = -37 then .OneOrMoreIBansAreInactive
  else if value = -38 then .IBanNotSetInShaparak
  else if value = -39 then .ErrorInWages
  else if value = -40 then .InvalidExpireInValue
  else if value = -50 then .InvalidSeasonUnmatchedAmounts
  else if value = -51 then .InvalidSeasonNoActivePayment
  else if value = -52 then .InvalidSeason
  else if value = -53 then .InvalidSeasonInvalidMerchantId
  else if value = -54 then .InvalidAuthority
  else if value = 101 then .Verified
  else .Unknown value

/-- Encode of a `ResultCode` back into a wire integer: the
`impl From<ResultCode> for i64` of src/results/result_code.rs
(lines 113-144), arm by arm. Note the source encodes the wage-related
and season-related variants with a positive sign. -/
def ResultCode.intoI64 : ResultCode → Int
  | .Validation => -9
  | .InvalidTerminalInfo => -10
  | .InactiveTerminal => -11
  | .ToManyAttempts => -12
  | .SuspendTerminal => -15
  | .TerminalLevelToLow => -16
  | .TerminalBlueLevelRestriction => -17
  | .Success => 100
  | .FloatingWagesNotAllowed => 30
  | .TerminalCantAcceptWages => 31
  | .TotalFloatingWagesHigherThanMaxAmount => 32
  | .InvalidWagesFloating => 33
  | .TotalFixedWagesHigherThanMaxAmount => 34
  | .TooManyFloutingWagesPartition => 35
  | .FloatingWagesAmountTooLow => 36
  | .OneOrMoreIBansAreInactive => 37
  | .IBanNotSetInShaparak => 38
  | .ErrorInWages => 39
  | .InvalidExpireInValue => 40
  | .InvalidSeasonUnmatchedAmounts => 50
  | .InvalidSeasonNoActivePayment => 51
  | .InvalidSeason => 52
  | .InvalidSeasonInvalidMerchantId => 53
  | .InvalidAuthority => 54
  | .Verified => 101
  | .Unknown raw => raw

/-- The wire integers that the decode table of
src/results/result_code.rs maps to named variants, in source order.
Every integer outside this list decodes to `Unknown`. -/
def namedWireCodes : List Int :=
  [-9, -10, -11, -12, -15, -16, -17, 100,
   -30, -31, -32, -33, -34, -35, -36, -37, -38, -39, -40,
   -50, -51, -52, -53, -54, 101]

end ZarinpalLib

namespace ZarinpalLib

/-- JSON values, the wire data model the serde decoders dispatch on. -/
inductive Json where
  | null
  | bool (b : Bool)
  | num (n : Int)
  | str (s : String)
  | arr (xs : List Json)
  | obj (fields : List (String × Json))

/-- Decode results: `Except String` models serde's `Result<_, D::Error>`. -/
abbrev DeResult (α : Type) := Except String α

/-- `WiredOption<T>` of src/results/__private.rs: a slot that is either
present as a decoded object or absent. -/
inductive WiredOption (α : Type) where
  | some (val : α)
  | none
  deriving Repr, DecidableEq

/-- The `Deserialize` impl for `WiredOption<T>`
(src/results/__private.rs) as driven by serde_json's
`deserialize_any`. A JSON array reaches `visit_seq`, which yields
`None` without consuming any element; serde_json then rejects
unconsumed elements (the streaming reader's `end_seq` reports trailing
characters, the `Value` path reports an invalid length), so only the
empty array decodes to the absent slot and a non-empty array is a
decode error. A JSON object reaches `visit_map`, which decodes the
full object as `T`; every other shape hits a visitor method `MapOrSeq`
does not implement, so it is rejected with serde's invalid-type error
(the visitor only expects "seq or map"). -/
def wiredOptionDecode {α : Type} (decT : Json → DeResult α) :
    Json → DeResult (WiredOption α)
  | .arr [] => .ok .none
  | .arr (_ :: _) => .error "trailing characters"
  | .obj fields =>
      match decT (.obj fields) with
      | .ok v => .ok (.some v)
      | .error e => .error e
  | _ => .error "invalid type, expected seq or map"

/-- First-match lookup of a key among the fields of a JSON object
(models serde's field dispatch when decoding a struct). -/
def jsonLookup (fields : List (String × Json)) (key : String) : Option Json :=
  match fields with
  | [] => Option.none
  | (k, v) :: rest => if k = key then Option.some v else jsonLookup rest key

/-- `i64::deserialize`: the wire value must be a JSON number. -/
def decodeI64 : Json → DeResult Int
  | .num n => .ok n
  | _ => .error "invalid type, expected i64"

/-- `String::deserialize`: the wire value must be a JSON string. -/
def decodeString : Json → DeResult String
  | .str s => .ok s
  | _ => .error "invalid type, expected a string"

/-- The `Deserialize` impl for `ResultCode`
(src/results/result_code.rs lines 70-77): decode an `i64`, then map it
through `From<i64>`. -/
def resultCodeDecode (j : Json) : DeResult ResultCode :=
  (decodeI64 j).map ResultCode.fromI64

/-- One `result.entry(key).or_insert_with(|| vec![]).push(val)` step of
`deserialize_validations` (src/error.rs lines 75-80), with the
`HashMap<String, Vec<String>>` read through first-match lookup: append
`val` to the entry holding `key` when one exists, otherwise add a fresh
singleton entry. -/
def insertValidation : List (String × List String) → String → String →
    List (String × List String)
  | [], key, val => [(key, [val])]
  | (k, vs) :: rest, key, val =>
      if k = key then (k, vs ++ [val]) :: rest
      else (k, vs) :: insertValidation rest key val

/-- The merge loop of `deserialize_validations` (src/error.rs lines
66-84): fold every `(key, val)` pair of every decoded wire item, in
order, into the accumulated map. The input is the already-decoded
`Vec<HashMap<String, String>>` (line 72), each item rendered as its
list of entries. -/
def deserializeValidations (opening : List (List (String × String))) :
    List (String × List String) :=
  opening.foldl
    (fun result item =>
      item.foldl (fun result kv => insertValidation result kv.1 kv.2) result)
    []

/-- `HashMap::get` on the merged validations map: first-match lookup. -/
def validationsLookup (m : List (String × List String)) (key : String) :
    Option (List String) :=
  match m with
  | [] => Option.none
  | (k, vs) :: rest => if k = key then Option.some vs else validationsLookup rest key

/-- The claim's characterization of the merge, written from the spec's
words: the messages attached to `key`, in arrival order, across all
wire items. Compared against `deserializeValidations` in C7. -/
def validationValuesFor (key : String) (opening : List (List (String × String))) :
    List String :=
  ((opening.flatten).filter (fun kv => kv.1 = key)).map Prod.snd

/-- Decoding `HashMap<String, String>` from a JSON object's fields:
every value must be a string. -/
def decodeStringMap : List (String × Json) → DeResult (List (String × String))
  | [] => .ok []
  | (k, v) :: rest => do
      let s ← decodeString v
      let tail ← decodeStringMap rest
      .ok ((k, s) :: tail)

/-- Decoding `Vec<HashMap<String, String>>` from a JSON array's
elements: every element must be an object of strings. -/
def decodeValidationItems : List Json → DeResult (List (List (String × String)))
  | [] => .ok []
  | .obj fields :: rest => do
      let item ← decodeStringMap fields
      let tail ← decodeValidationItems rest
      .ok (item :: tail)
  | _ :: _ => .error "invalid type, expected a map"

/-- `deserialize_validations` (src/error.rs) end to end on a wire
value: decode `Vec<HashMap<String, String>>`, then merge. -/
def deserializeValidationsWire (j : Json) :
    DeResult (List (String × List String)) :=
  match j with
  | .arr items => (decodeValidationItems items).map deserializeValidations
  | _ => .error "invalid type, expected a sequence"

/-- `ApiError` of src/error.rs: result code, message and the merged
per-field validation messages. -/
structure ApiError where
  code : ResultCode
  message : String
  validations : List (String × List String)
  deriving Repr, DecidableEq

/-- The derived `Deserialize` for `ApiError` (src/error.rs lines
11-33): all three fields are required; `code` decodes through the
taxonomy, `validations` through `deserialize_validations`. -/
def apiErrorDecode (j : Json) : DeResult ApiError :=
  match j with
  | .obj fields => do
      let codeJ ← match jsonLookup fields "code" with
        | Option.some v => Except.ok v
        | Option.none => Except.error "missing field code"
      let code ← resultCodeDecode codeJ
      let messageJ ← match jsonLookup fields "message" with
        | Option.some v => Except.ok v
        | Option.none => Except.error "missing field message"
      let message ← decodeString messageJ
      let validationsJ ← match jsonLookup fields "validations" with
        | Option.some v => Except.ok v
        | Option.none => Except.error "missing field validations"
      let validations ← deserializeValidationsWire validationsJ
      .ok ⟨code, message, validations⟩
  | _ => .error "invalid type, expected struct ApiError"

/-- `__private::ApiResult<R>` of src/results/__private.rs (lines
125-131): the decoded envelope, one `WiredOption` slot for `data` and
one for `errors`. -/
structure ApiResultPriv (ρ : Type) where
  data : WiredOption ρ
  errors : WiredOption ApiError
  deriving Repr, DecidableEq

/-- The derived `Deserialize` for `__private::ApiResult<R>`: each slot
decodes through `WiredOption`'s shape-sensing decode, and a missing key
falls back to `WiredOption::default()` (`None`) because of the
`#[serde(default)]` attributes. -/
def apiResultPrivDecode {ρ : Type} (decR : Json → DeResult ρ) :
    Json → DeResult (ApiResultPriv ρ)
  | .obj fields => do
      let data ← match jsonLookup fields "data" with
        | Option.some j => wiredOptionDecode decR j
        | Option.none => Except.ok WiredOption.none
      let errors ← match jsonLookup fields "errors" with
        | Option.some j => wiredOptionDecode apiErrorDecode j
        | Option.none => Except.ok WiredOption.none
      .ok ⟨data, errors⟩
  | _ => .error "invalid type, expected struct ApiResult"

/-- The outcome of reducing a decoded envelope to the unified result.
`panic` embeds the `unreachable!()` arm of the source: reaching it
aborts instead of returning a value. -/
inductive ReduceOutcome (ρ : Type) where
  | ok (data : ρ)
  | err (errors : ApiError)
  | panic
  deriving Repr, DecidableEq

/-- The `From<__private::ApiResult<R>> for ApiResult<R>` reduction of
src/results/mod.rs (lines 31-41): present `data` wins, otherwise a
present `errors` is returned as the error, and the both-absent case is
the source's `unreachable!()`. -/
def apiResultReduce {ρ : Type} (value : ApiResultPriv ρ) : ReduceOutcome ρ :=
  match value.data with
  | .some data => .ok data
  | .none =>
      match value.errors with
      | .some errors => .err errors
      | .none => .panic

/-- The wire envelope of spec property 5: both slots present as empty
arrays. -/
def bothEmptyEnvelope : Json :=
  .obj [("data", Json.arr []), ("errors", Json.arr [])]

/-- A concrete populated `ApiError` used in witnesses. -/
def apiErrorExample : ApiError :=
  ⟨ResultCode.Validation, "bad", [("merchant_id", ["bad uuid"])]⟩

/-- The object fields of a concrete wire `ApiError`. -/
def apiErrorWireFields : List (String × Json) :=
  [("code", Json.num (-9)),
   ("message", Json.str "bad"),
   ("validations", Json.arr [Json.obj [("merchant_id", Json.str "bad uuid")]])]

/-- A concrete wire `ApiError` object used in witnesses. -/
def apiErrorWireExample : Json := Json.obj apiErrorWireFields

/-- The validations wire list of spec property 6. -/
def validationsWireExample : List (List (String × String)) :=
  [[("merchant_id", "a")], [("merchant_id", "b")], [("amount", "c")]]

/-- `Authorities` of src/results/unverified.rs: one unverified payment
request. -/
structure Authorities where
  authority : String
  amount : Nat
  callback_url : String
  referer : String
  date : String
  deriving Repr, DecidableEq

/-- `Unverified` of src/results/unverified.rs: note the wire `code` is
a string, not a number. -/
structure Unverified where
  code : String
  message : String
  authorities : List Authorities
  deriving Repr, DecidableEq

/-- An operation that can abort: `panic` embeds a Rust `unwrap()` on a
failed parse. -/
inductive PanicOr (α : Type) where
  | ok (val : α)
  | panic
  deriving Repr, DecidableEq

/-- Rust's `str::parse::<i64>()`: an optional leading sign followed by
one or more ASCII digits, nothing else. (Overflow is not modelled: the
wire codes are small.) -/
def rustParseI64 (s : String) : Option Int :=
  let parseDigits : List Char → Option Nat := fun cs =>
    if cs.isEmpty then Option.none
    else if cs.all (fun c => c.isDigit) then
      Option.some (cs.foldl (fun n c => n * 10 + (c.toNat - '0'.toNat)) 0)
    else Option.none
  match s.toList with
  | '+' :: rest => (parseDigits rest).map (fun n => (n : Int))
  | '-' :: rest => (parseDigits rest).map (fun n => -(n : Int))
  | cs => (parseDigits cs).map (fun n => (n : Int))

/-- The `code()` accessor of `impl RequestResult for Unverified`
(src/results/unverified.rs lines 77-85):
`self.code.parse::<i64>().unwrap().into()`. The `unwrap` panic on a
failed parse is embedded as the explicit `panic` outcome. -/
def Unverified.codeResult (u : Unverified) : PanicOr ResultCode :=
  match rustParseI64 u.code with
  | Option.some n => PanicOr.ok (ResultCode.fromI64 n)
  | Option.none => PanicOr.panic

/-- `Currency` of src/methods/request.rs; `IRR` is the default. -/
inductive Currency where
  | IRR
  | IRT
  deriving Repr, DecidableEq

/-- `Metadata` of src/methods/request.rs: four individually omittable
sub-fields. -/
structure Metadata where
  mobile : Option String
  email : Option String
  order_id : Option String
  card_pan : Option String
  deriving Repr, DecidableEq

/-- `Metadata::default()`: every sub-field unset. -/
def Metadata.defaultValue : Metadata :=
  ⟨Option.none, Option.none, Option.none, Option.none⟩

/-- `Wage` of src/methods/request.rs. -/
structure Wage where
  iban : String
  amount : Nat
  description : String
  deriving Repr, DecidableEq

/-- `RequestPayment` of src/methods/request.rs: the payment-request
payload. The `zarinpal` field of the source (a reference to the
sending client, marked `skip_serializing`) carries no wire data and is
not part of this data model. -/
structure RequestPayment where
  merchant_id : Option String
  currency : Option Currency
  amount : Nat
  callback_url : String
  description : String
  metadata : Metadata
  wages : Option (List Wage)
  deriving Repr, DecidableEq

/-- `VerifyPayment` of src/methods/verify.rs (client reference field
omitted as above). -/
structure VerifyPayment where
  merchant_id : Option String
  amount : Nat
  authority : String
  deriving Repr, DecidableEq

/-- `UnverifiedRequests` of src/methods/unverified.rs (client reference
field omitted as above). -/
structure UnverifiedRequests where
  merchant_id : Option String
  deriving Repr, DecidableEq

/-- `ApiMethod::set_merchant_id_if_needed` for `RequestPayment`
(src/methods/request.rs lines 139-144): assign only when the field is
`None`. `ZarinpalClient::send` (src/lib.rs line 37) invokes this hook
with the client's configured merchant id before serializing. -/
def RequestPayment.set_merchant_id_if_needed
    (r : RequestPayment) (merchant_id : String) : RequestPayment :=
  match r.merchant_id with
  | Option.none => { r with merchant_id := Option.some merchant_id }
  | _ => r

/-- `ApiMethod::set_merchant_id_if_needed` for `VerifyPayment`
(src/methods/verify.rs lines 90-95). -/
def VerifyPayment.set_merchant_id_if_needed
    (v : VerifyPayment) (merchant_id : String) : VerifyPayment :=
  match v.merchant_id with
  | Option.none => { v with merchant_id := Option.some merchant_id }
  | _ => v

/-- `ApiMethod::set_merchant_id_if_needed` for `UnverifiedRequests`
(src/methods/unverified.rs lines 63-68). -/
def UnverifiedRequests.set_merchant_id_if_needed
    (u : UnverifiedRequests) (merchant_id : String) : UnverifiedRequests :=
  match u.merchant_id with
  | Option.none => { u with merchant_id := Option.some merchant_id }
  | _ => u

/-- Derived `Serialize` for `Currency`: the variant name. -/
def Currency.serializeJson : Currency → Json
  | .IRR => Json.str "IRR"
  | .IRT => Json.str "IRT"

/-- Derived `Serialize` for `Metadata`: each sub-field carries
`#[serde(skip_serializing_if = "Option::is_none")]`, so an unset
sub-field emits no key. -/
def Metadata.serializeFields (m : Metadata) : List (String × Json) :=
  (match m.mobile with
   | Option.some s => [("mobile", Json.str s)]
   | Option.none => []) ++
  (match m.email with
   | Option.some s => [("email", Json.str s)]
   | Option.none => []) ++
  (match m.order_id with
   | Option.some s => [("order_id", Json.str s)]
   | Option.none => []) ++
  (match m.card_pan with
   | Option.some s => [("card_pan", Json.str s)]
   | Option.none => [])

/-- Derived `Serialize` for `Wage`. -/
def Wage.serializeJson (w : Wage) : Json :=
  Json.obj [("iban", Json.str w.iban), ("amount", Json.num (w.amount : Int)),
    ("description", Json.str w.description)]

/-- Derived `Serialize` for `RequestPayment`, fields in declaration
order: `merchant_id` has no skip attribute (a `None` would serialize as
null); `currency` and `wages` carry
`#[serde(skip_serializing_if = "Option::is_none")]`; `metadata` is
always emitted; the `zarinpal` client reference is
`#[serde(skip_serializing)]`. -/
def RequestPayment.serializeFields (r : RequestPayment) : List (String × Json) :=
  [("merchant_id",
    match r.merchant_id with
    | Option.some s => Json.str s
    | Option.none => Json.null)] ++
  (match r.currency with
   | Option.some c => [("currency", c.serializeJson)]
   | Option.none => []) ++
  [("amount", Json.num (r.amount : Int)),
   ("callback_url", Json.str r.callback_url),
   ("description", Json.str r.description),
   ("metadata", Json.obj r.metadata.serializeFields)] ++
  (match r.wages with
   | Option.some ws => [("wages", Json.arr (ws.map Wage.serializeJson))]
   | Option.none => [])

/-- A `RequestPayment` built through the builder with only the required
fields plus an explicit merchant id: every `#[builder(default)]` field
keeps its default (`None`; `Metadata::default()` for `metadata`). -/
def RequestPayment.requiredOnly
    (amount : Nat) (callback_url description merchant_id : String) :
    RequestPayment :=
  ⟨Option.some merchant_id, Option.none, amount, callback_url, description,
   Metadata.defaultValue, Option.none⟩

/-- The ASCII hex digits the uuid parser accepts (case-insensitive). -/
def hexDigitChars : List Char := "0123456789abcdefABCDEF".toList

/-- The lower-case hex digits, the alphabet of a canonical rendering. -/
def lowerHexChars : List Char := "0123456789abcdef".toList

/-- Whether a character is an ASCII hex digit of either case. -/
def isHexDigitChar (c : Char) : Bool := hexDigitChars.contains c

/-- Whether a character is a lower-case ASCII hex digit. -/
def isLowerHexChar (c : Char) : Bool := lowerHexChars.contains c

/-- Lower-casing of one hex digit. -/
def hexToLower (c : Char) : Char :=
  if c = 'A' then 'a' else if c = 'B' then 'b' else if c = 'C' then 'c'
  else if c = 'D' then 'd' else if c = 'E' then 'e' else if c = 'F' then 'f'
  else c

/-- The simple uuid format accepted by `uuid::Uuid::parse_str`
(src/lib.rs consumes the uuid crate): exactly 32 hex digits, either
case. The parsed value is kept as its 32 digits, lower-cased. -/
def parseSimple (cs : List Char) : Option (List Char) :=
  if cs.length = 32 && cs.all isHexDigitChar then
    Option.some (cs.map hexToLower)
  else Option.none

/-- The hyphenated uuid format accepted by `uuid::Uuid::parse_str`:
five hex groups of lengths 8-4-4-4-12 separated by single hyphens
(equivalently, hyphens exactly at positions 8, 13, 18 and 23). -/
def parseHyphenated (cs : List Char) : Option (List Char) :=
  match cs.splitOn '-' with
  | [g1, g2, g3, g4, g5] =>
      if g1.length = 8 && g2.length = 4 && g3.length = 4 && g4.length = 4 &&
          g5.length = 12 && (g1 ++ g2 ++ g3 ++ g4 ++ g5).all isHexDigitChar then
        Option.some ((g1 ++ g2 ++ g3 ++ g4 ++ g5).map hexToLower)
      else Option.none
  | _ => Option.none

/-- `uuid::Uuid::parse_str`, the validation used by `Zarinpal::new`
(src/lib.rs lines 111-119): it accepts the urn form
(`urn:uuid:` followed by the hyphenated form), the braced form
(the hyphenated form between braces), the 32-digit simple form, and
the hyphenated form, all case-insensitively. -/
def uuidParse (cs : List Char) : Option (List Char) :=
  if cs.take 9 = "urn:uuid:".toList then parseHyphenated (cs.drop 9)
  else
    match cs with
    | '{' :: rest =>
        if rest.getLast? = Option.some '}' then parseHyphenated rest.dropLast
        else Option.none
    | _ =>
        if cs.length = 32 then parseSimple cs else parseHyphenated cs

/-- `uuid::Uuid::to_string`, used by `Zarinpal::new` to produce the
stored merchant id: the canonical rendering, i.e. the 32 lower-case
digits with hyphens inserted at the 8-4-4-4-12 group boundaries. -/
def uuidToString (digits : List Char) : List Char :=
  let r8 := digits.drop 8
  let r12 := r8.drop 4
  let r16 := r12.drop 4
  digits.take 8 ++
  '-' :: r8.take 4 ++
  '-' :: r12.take 4 ++
  '-' :: r16.take 4 ++
  '-' :: r16.drop 4

/-- The base url `Zarinpal::new` configures. -/
def defaultBaseUrl : List Char := "https://api.zarinpal.com/".toList

/-- The `Zarinpal` client state of src/lib.rs (lines 80-86): the stored
merchant id reported by `merchant_id()` and used for request
defaulting, and the base url. The reqwest client is not part of the
data model. -/
structure Zarinpal where
  merchant_id : List Char
  base_url : List Char
  deriving Repr, DecidableEq

/-- `Zarinpal::new` (src/lib.rs lines 111-119): parse the argument as a
UUID — failing when it is not one — and store
`merchant_id_uuid.to_string()`, not the caller's original string. -/
def Zarinpal.new (merchant_id : List Char) : Option Zarinpal :=
  (uuidParse merchant_id).map (fun u => ⟨uuidToString u, defaultBaseUrl⟩)

/-- `Zarinpal::new_with_client` (src/lib.rs lines 129-140): identical
merchant-id handling; only the injected http client differs, which is
not part of the data model. -/
def Zarinpal.new_with_client (merchant_id : List Char) : Option Zarinpal :=
  (uuidParse merchant_id).map (fun u => ⟨uuidToString u, defaultBaseUrl⟩)

/-- An upper-case hyphenated uuid spelling, a witness input. -/
def uuidUpperExample : List Char :=
  "1344B5D4-0048-11E8-94DB-005056A205BE".toList

/-- The parsed digits of `uuidUpperExample`, lower-cased. -/
def uuidDigitsExample : List Char :=
  "1344b5d4004811e894db005056a205be".toList

end ZarinpalLib

namespace ZarinpalLib

/-- One-pair step of the merge, read through the lookup, at the pair's
own key: the value is appended to that key's list. -/
theorem validationsLookup_insertValidation_same
    (m : List (String × List String)) (key val : String) :
    validationsLookup (insertValidation m key val) key =
      Option.some ((validationsLookup m key).getD [] ++ [val]) := by
  induction m with
  | nil => simp [insertValidation, validationsLookup]
  | cons head rest ih =>
      obtain ⟨k, vs⟩ := head
      by_cases hk : k = key
      · subst hk
        simp [insertValidation, validationsLookup]
      · simp [insertValidation, validationsLookup, hk, ih]

/-- One-pair step of the merge, read through the lookup, at any other
key: the lookup is unchanged. -/
theorem validationsLookup_insertValidation_other
    (m : List (String × List String)) (k2 key val : String) (h : k2 ≠ key) :
    validationsLookup (insertValidation m k2 val) key = validationsLookup m key := by
  induction m with
  | nil => simp [insertValidation, validationsLookup, h]
  | cons head rest ih =>
      obtain ⟨k, vs⟩ := head
      by_cases hk : k = k2
      · subst hk
        have hkey : k ≠ key := h
        simp [insertValidation, validationsLookup, hkey]
      · by_cases hkey : k = key
        · subst hkey
          simp [insertValidation, validationsLookup, hk]
        · simp [insertValidation, validationsLookup, hk, hkey, ih]

/-- Folding a flat list of pairs into the map accumulates, per key, the
values of that key's pairs in arrival order. -/
theorem validationsLookup_getD_foldl_pairs
    (pairs : List (String × String)) (acc : List (String × List String))
    (key : String) :
    (validationsLookup
        (pairs.foldl (fun r kv => insertValidation r kv.1 kv.2) acc) key).getD [] =
      (validationsLookup acc key).getD [] ++
        ((pairs.filter (fun kv => kv.1 = key)).map Prod.snd) := by
  induction pairs generalizing acc with
  | nil => simp
  | cons kv rest ih =>
      obtain ⟨k, v⟩ := kv
      by_cases hk : k = key
      · subst hk
        simp [ih, validationsLookup_insertValidation_same, List.filter_cons]
      · simp [ih, validationsLookup_insertValidation_other acc k key v hk,
          List.filter_cons, hk]

/-- Folding a flat list of pairs into the map creates an entry for a
key exactly when the accumulator has one or some pair carries the key. -/
theorem validationsLookup_isSome_foldl_pairs
    (pairs : List (String × String)) (acc : List (String × List String))
    (key : String) :
    (validationsLookup
        (pairs.foldl (fun r kv => insertValidation r kv.1 kv.2) acc) key).isSome =
      ((validationsLookup acc key).isSome ||
        pairs.any (fun kv => kv.1 = key)) := by
  induction pairs generalizing acc with
  | nil => simp
  | cons kv rest ih =>
      obtain ⟨k, v⟩ := kv
      by_cases hk : k = key
      · subst hk
        simp [ih, validationsLookup_insertValidation_same]
      · simp [ih, validationsLookup_insertValidation_other acc k key v hk, hk]

/-- The merged map's entry for a key holds exactly that key's wire
values in arrival order (flattened across items). -/
theorem deserializeValidations_lookup_getD
    (opening : List (List (String × String))) (key : String) :
    (validationsLookup (deserializeValidations opening) key).getD [] =
      validationValuesFor key opening := by
  rw [deserializeValidations, validationValuesFor]
  have main : ∀ (acc : List (String × List String)),
      (validationsLookup
          (opening.foldl
            (fun result item =>
              item.foldl (fun result kv => insertValidation result kv.1 kv.2) result)
            acc) key).getD [] =
        (validationsLookup acc key).getD [] ++
          ((opening.flatten.filter (fun kv => kv.1 = key)).map Prod.snd) := by
    induction opening with
    | nil => intro acc; simp
    | cons item rest ih =>
        intro acc
        simp only [List.foldl_cons, ih, validationsLookup_getD_foldl_pairs,
          List.flatten_cons, List.filter_append, List.map_append,
          List.append_assoc]
  simpa using main []

/-- The merged map has an entry for a key exactly when some wire pair
carries it. -/
theorem deserializeValidations_lookup_isSome
    (opening : List (List (String × String))) (key : String) :
    (validationsLookup (deserializeValidations opening) key).isSome =
      opening.flatten.any (fun kv => kv.1 = key) := by
  rw [deserializeValidations]
  have main : ∀ (acc : List (String × List String)),
      (validationsLookup
          (opening.foldl
            (fun result item =>
              item.foldl (fun result kv => insertValidation result kv.1 kv.2) result)
            acc) key).isSome =
        ((validationsLookup acc key).isSome ||
          opening.flatten.any (fun kv => kv.1 = key)) := by
    induction opening with
    | nil => intro acc; simp
    | cons item rest ih =>
        intro acc
        simp [List.foldl_cons, ih, validationsLookup_isSome_foldl_pairs,
          Bool.or_assoc]
  simpa using main []

/-- C1: the claim states that for every wire integer mapped to a named
variant, re-encoding the variant returns the same wire integer. The
code violates this: `-30` decodes to `FloatingWagesNotAllowed`, which
re-encodes to `30`, not `-30`. This theorem evaluates the code at the
failing input. -/
theorem C1_wage_code_roundtrip_fails :
    (-30 : Int) ∈ namedWireCodes ∧
    ResultCode.fromI64 (-30) = ResultCode.FloatingWagesNotAllowed ∧
    ResultCode.intoI64 (ResultCode.fromI64 (-30)) = 30 ∧
    ResultCode.intoI64 (ResultCode.fromI64 (-30)) ≠ -30 := by
  refine ⟨by decide, by decide, by decide, by decide⟩

/-- C6: decode is total (it is a Lean function on `Int`), every integer
outside the named mapping table decodes to `Unknown` of that integer,
and re-encoding such an `Unknown` returns the stored integer, so
`encode (decode v) = v` for every unmapped `v`. -/
theorem C6_unmapped_decodes_to_unknown_and_roundtrips
    (v : Int) (h : v ∉ namedWireCodes) :
    ResultCode.fromI64 v = ResultCode.Unknown v ∧
    ResultCode.intoI64 (ResultCode.fromI64 v) = v := by
  simp only [namedWireCodes, List.mem_cons, List.not_mem_nil, or_false,
    not_or] at h
  obtain ⟨h1, h2, h3, h4, h5, h6, h7, h8, h9, h10, h11, h12, h13, h14,
    h15, h16, h17, h18, h19, h20, h21, h22, h23, h24, h25⟩ := h
  have hf : ResultCode.fromI64 v = ResultCode.Unknown v := by
    simp only [ResultCode.fromI64, if_neg h1, if_neg h2, if_neg h3,
      if_neg h4, if_neg h5, if_neg h6, if_neg h7, if_neg h8, if_neg h9,
      if_neg h10, if_neg h11, if_neg h12, if_neg h13, if_neg h14,
      if_neg h15, if_neg h16, if_neg h17, if_neg h18, if_neg h19,
      if_neg h20, if_neg h21, if_neg h22, if_neg h23, if_neg h24,
      if_neg h25]
  exact ⟨hf, by rw [hf]; rfl⟩

/-- Witness for C6 at the concrete unmapped wire integer `7`. -/
theorem C6_unmapped_decodes_to_unknown_and_roundtrips_witness :
    (7 : Int) ∉ namedWireCodes ∧
    (ResultCode.fromI64 7 = ResultCode.Unknown 7 ∧
     ResultCode.intoI64 (ResultCode.fromI64 7) = 7) :=
  ⟨by decide, C6_unmapped_decodes_to_unknown_and_roundtrips 7 (by decide)⟩

/-- C2: the claim states that an envelope carrying neither slot reduces
to a protocol-violation decode error and never panics. The code
violates this: `{"data": [], "errors": []}` decodes successfully to the
both-absent envelope, and the reduction of src/results/mod.rs then hits
`unreachable!()`, i.e. it panics. It is still never a silently-empty
success: the outcome is `panic`, not `ok`. This theorem evaluates the
code at the failing input. -/
theorem C2_both_absent_panics_instead_of_decode_error :
    apiResultPrivDecode decodeI64 bothEmptyEnvelope =
      Except.ok ⟨WiredOption.none, WiredOption.none⟩ ∧
    apiResultReduce
        (⟨WiredOption.none, WiredOption.none⟩ : ApiResultPriv Int) =
      ReduceOutcome.panic ∧
    ∀ d : Int,
      apiResultReduce (⟨WiredOption.none, WiredOption.none⟩ : ApiResultPriv Int) ≠
        ReduceOutcome.ok d :=
  ⟨rfl, rfl, fun _ h => ReduceOutcome.noConfusion h⟩

/-- C3: the envelope resolution policy of src/results/mod.rs. If the
data slot is present the reduction returns that payload, whatever the
errors slot holds; if the data slot is absent and the errors slot is
present, the reduction returns that error. -/
theorem C3_resolution_policy {ρ : Type} (v : ApiResultPriv ρ) :
    (∀ d, v.data = WiredOption.some d → apiResultReduce v = ReduceOutcome.ok d) ∧
    (v.data = WiredOption.none →
      ∀ e, v.errors = WiredOption.some e → apiResultReduce v = ReduceOutcome.err e) := by
  obtain ⟨data, errors⟩ := v
  constructor
  · intro d hd
    cases hd
    rfl
  · intro hd e he
    cases hd
    cases he
    rfl

/-- Witness for C3: a both-set envelope reduces to the success payload
(errors ignored), and a data-absent envelope with an error reduces to
that error. -/
theorem C3_resolution_policy_witness :
    apiResultReduce
        (⟨WiredOption.some 5, WiredOption.some apiErrorExample⟩ : ApiResultPriv Int) =
      ReduceOutcome.ok 5 ∧
    apiResultReduce
        (⟨WiredOption.none, WiredOption.some apiErrorExample⟩ : ApiResultPriv Int) =
      ReduceOutcome.err apiErrorExample :=
  ⟨(C3_resolution_policy ⟨WiredOption.some 5, WiredOption.some apiErrorExample⟩).1
      5 rfl,
   (C3_resolution_policy ⟨WiredOption.none, WiredOption.some apiErrorExample⟩).2
      rfl apiErrorExample rfl⟩

/-- C4 counterexample: the claim states that a JSON array of any
length, including non-empty arrays, decodes the slot to absent. On a
non-empty array the program instead fails: the `MapOrSeq` visitor
leaves the elements unconsumed and serde_json rejects them, so the
slot decode is an error, not the absent slot. -/
theorem C4_nonempty_array_not_absent_counterexample :
    wiredOptionDecode decodeI64 (Json.arr [Json.num 1]) =
      Except.error "trailing characters" ∧
    wiredOptionDecode decodeI64 (Json.arr [Json.num 1]) ≠
      Except.ok WiredOption.none :=
  ⟨rfl, fun h => Except.noConfusion h⟩

/-- C4 (amended): the shape-sensing slot decode of
src/results/__private.rs under serde_json. An empty JSON array decodes
to the absent slot; a non-empty JSON array is a decode error (the
visitor leaves its elements unconsumed and serde_json rejects them); a
JSON object is decoded fully by the payload decoder and yields the
present slot (or propagates that decoder's error); every other JSON
shape is a decode error. -/
theorem C4_shape_sensing_amended {α : Type} (dec : Json → DeResult α) :
    wiredOptionDecode dec (Json.arr []) = Except.ok WiredOption.none ∧
    (∀ x xs, wiredOptionDecode dec (Json.arr (x :: xs)) =
      Except.error "trailing characters") ∧
    (∀ fields t, dec (Json.obj fields) = Except.ok t →
      wiredOptionDecode dec (Json.obj fields) = Except.ok (WiredOption.some t)) ∧
    (∀ fields e, dec (Json.obj fields) = Except.error e →
      wiredOptionDecode dec (Json.obj fields) = Except.error e) ∧
    (∀ j, (∀ xs, j ≠ Json.arr xs) → (∀ fields, j ≠ Json.obj fields) →
      wiredOptionDecode dec j = Except.error "invalid type, expected seq or map") := by
  refine ⟨rfl, fun x xs => rfl, ?_, ?_, ?_⟩
  · intro fields t h
    simp [wiredOptionDecode, h]
  · intro fields e h
    simp [wiredOptionDecode, h]
  · intro j h1 h2
    cases j with
    | null => rfl
    | bool b => rfl
    | num n => rfl
    | str s => rfl
    | arr xs => exact absurd rfl (h1 xs)
    | obj fields => exact absurd rfl (h2 fields)

/-- Witness for the amended C4: the empty array decodes to absent, a
non-empty array is a trailing-characters error, a concrete error
object decodes fully and is present, and a string is rejected. -/
theorem C4_shape_sensing_amended_witness :
    wiredOptionDecode apiErrorDecode (Json.arr []) =
      Except.ok WiredOption.none ∧
    wiredOptionDecode apiErrorDecode (Json.arr [Json.num 1, Json.num 2]) =
      Except.error "trailing characters" ∧
    (apiErrorDecode apiErrorWireExample = Except.ok apiErrorExample ∧
     wiredOptionDecode apiErrorDecode apiErrorWireExample =
       Except.ok (WiredOption.some apiErrorExample)) ∧
    wiredOptionDecode apiErrorDecode (Json.str "x") =
      Except.error "invalid type, expected seq or map" :=
  ⟨(C4_shape_sensing_amended apiErrorDecode).1,
   (C4_shape_sensing_amended apiErrorDecode).2.1 (Json.num 1) [Json.num 2],
   ⟨rfl,
    (C4_shape_sensing_amended apiErrorDecode).2.2.1 apiErrorWireFields
      apiErrorExample rfl⟩,
   (C4_shape_sensing_amended apiErrorDecode).2.2.2.2 (Json.str "x")
     (fun xs h => Json.noConfusion h) (fun fields h => Json.noConfusion h)⟩

/-- C7: decoding the wire validations list (a list of single-entry
objects) yields, for every field name, the ordered list of that field's
messages: entries sharing a field name are merged, arrival order is
preserved within each field's list, and a field with no entry is
absent. -/
theorem C7_validation_list_merge
    (opening : List (List (String × String)))
    (hsingle : ∀ item ∈ opening, item.length ≤ 1) (key : String) :
    validationsLookup (deserializeValidations opening) key =
      if validationValuesFor key opening = [] then Option.none
      else Option.some (validationValuesFor key opening) := by
  have h1 := deserializeValidations_lookup_getD opening key
  have h2 := deserializeValidations_lookup_isSome opening key
  match hlk : validationsLookup (deserializeValidations opening) key with
  | Option.none =>
      rw [hlk] at h1
      have hv : validationValuesFor key opening = [] := by simpa using h1.symm
      rw [if_pos hv]
  | Option.some vs =>
      rw [hlk] at h1 h2
      have hany : opening.flatten.any (fun kv => kv.1 = key) = true := by
        simpa using h2.symm
      have hne : validationValuesFor key opening ≠ [] := by
        intro h0
        rw [validationValuesFor] at h0
        have hfil : opening.flatten.filter (fun kv => kv.1 = key) = [] :=
          List.map_eq_nil_iff.mp h0
        rw [List.any_eq_true] at hany
        obtain ⟨kv, hkv, hp⟩ := hany
        have : kv ∈ opening.flatten.filter (fun kv => kv.1 = key) :=
          List.mem_filter.mpr ⟨hkv, hp⟩
        rw [hfil] at this
        exact List.not_mem_nil kv this
      rw [if_neg hne, ← h1]
      rfl

/-- Witness for C7 at the spec's example wire list: merchant_id gets
["a", "b"] in order, amount gets ["c"], an unmentioned field is
absent. -/
theorem C7_validation_list_merge_witness :
    (∀ item ∈ validationsWireExample, item.length ≤ 1) ∧
    validationsLookup (deserializeValidations validationsWireExample) "merchant_id" =
      Option.some ["a", "b"] ∧
    validationsLookup (deserializeValidations validationsWireExample) "amount" =
      Option.some ["c"] ∧
    validationsLookup (deserializeValidations validationsWireExample) "email" =
      Option.none := by
  refine ⟨by decide, ?_, ?_, ?_⟩
  · rw [C7_validation_list_merge validationsWireExample (by decide) "merchant_id"]
    decide
  · rw [C7_validation_list_merge validationsWireExample (by decide) "amount"]
    decide
  · rw [C7_validation_list_merge validationsWireExample (by decide) "email"]
    decide

/-- C5: the claim states that `code()` parses the numeric-string wire
code through the taxonomy (wire "100" yields Success — which holds) and
that a non-numeric code string is a hard decode error. The code
violates the second part: decoding an envelope whose `code` is
non-numeric succeeds (the field is just a string), and the `code()`
accessor then panics through `parse::<i64>().unwrap()` instead of
returning any decode error. This theorem evaluates the code at the
failing input. -/
theorem C5_unverified_code_panics_on_non_numeric :
    Unverified.codeResult ⟨"100", "Success", []⟩ = PanicOr.ok ResultCode.Success ∧
    Unverified.codeResult ⟨"abc", "Success", []⟩ = PanicOr.panic ∧
    ∀ rc : ResultCode,
      Unverified.codeResult ⟨"abc", "Success", []⟩ ≠ PanicOr.ok rc :=
  ⟨rfl, rfl, fun _ h => PanicOr.noConfusion h⟩

/-- C8: the merchant-id defaulting hook of each of the three methods
sets the `merchant_id` field to the id handed over by the sending
client exactly when the field is `None`, leaves an explicitly built id
unchanged whatever the client id is, and touches no other field. -/
theorem C8_merchant_id_defaulting :
    (∀ (r : RequestPayment) (mid : String),
      r.set_merchant_id_if_needed mid =
        { r with merchant_id := Option.some (r.merchant_id.getD mid) }) ∧
    (∀ (v : VerifyPayment) (mid : String),
      v.set_merchant_id_if_needed mid =
        { v with merchant_id := Option.some (v.merchant_id.getD mid) }) ∧
    (∀ (u : UnverifiedRequests) (mid : String),
      u.set_merchant_id_if_needed mid =
        { u with merchant_id := Option.some (u.merchant_id.getD mid) }) := by
  refine ⟨fun r mid => ?_, fun v mid => ?_, fun u mid => ?_⟩
  · obtain ⟨mi, rest⟩ := r
    cases mi <;> rfl
  · obtain ⟨mi, rest⟩ := v
    cases mi <;> rfl
  · obtain ⟨mi⟩ := u
    cases mi <;> rfl

/-- C9: serializing a payment request built with only the required
fields (and an explicit merchant id) emits no `currency` key, no
`wages` key, and emits `metadata` as an empty object (all four
sub-fields omitted). -/
theorem C9_required_only_serialization
    (amount : Nat) (callback_url description merchant_id : String) :
    "currency" ∉
      ((RequestPayment.requiredOnly amount callback_url description
        merchant_id).serializeFields).map Prod.fst ∧
    "wages" ∉
      ((RequestPayment.requiredOnly amount callback_url description
        merchant_id).serializeFields).map Prod.fst ∧
    jsonLookup
      ((RequestPayment.requiredOnly amount callback_url description
        merchant_id).serializeFields) "metadata" =
      Option.some (Json.obj []) := by
  refine ⟨?_, ?_, ?_⟩ <;>
    simp [RequestPayment.requiredOnly, RequestPayment.serializeFields,
      Metadata.defaultValue, Metadata.serializeFields, jsonLookup]

/-- Lower-casing a hex digit of either case yields a lower-case hex
digit. -/
theorem hexToLower_isLowerHex (c : Char) (h : isHexDigitChar c = true) :
    isLowerHexChar (hexToLower c) = true := by
  have hc : c ∈ hexDigitChars := by
    simpa [isHexDigitChar] using h
  have hforall : ∀ d ∈ hexDigitChars, isLowerHexChar (hexToLower d) = true := by
    decide
  exact hforall c hc

/-- A lower-case hex digit is not a hyphen. -/
theorem isLowerHexChar_ne_hyphen (c : Char) (h : isLowerHexChar c = true) :
    c ≠ '-' := by
  intro he
  subst he
  exact absurd h (by decide)

/-- A successful simple parse yields 32 lower-case hex digits. -/
theorem parseSimple_spec (cs u : List Char)
    (h : parseSimple cs = Option.some u) :
    u.length = 32 ∧ u.all isLowerHexChar = true := by
  unfold parseSimple at h
  split at h
  case isTrue hguard =>
    injection h with hu
    simp only [Bool.and_eq_true, decide_eq_true_eq] at hguard
    obtain ⟨hlen, hall⟩ := hguard
    constructor
    · rw [← hu, List.length_map, hlen]
    · rw [← hu, List.all_map, List.all_eq_true]
      rw [List.all_eq_true] at hall
      intro c hc
      exact hexToLower_isLowerHex c (hall c hc)
  case isFalse _ => exact absurd h (by simp)

/-- A successful hyphenated parse yields 32 lower-case hex digits. -/
theorem parseHyphenated_spec (cs u : List Char)
    (h : parseHyphenated cs = Option.some u) :
    u.length = 32 ∧ u.all isLowerHexChar = true := by
  unfold parseHyphenated at h
  split at h
  case h_1 g1 g2 g3 g4 g5 =>
    split at h
    case isTrue hguard =>
      injection h with hu
      simp only [Bool.and_eq_true, decide_eq_true_eq] at hguard
      obtain ⟨⟨⟨⟨⟨h1, h2⟩, h3⟩, h4⟩, h5⟩, hall⟩ := hguard
      constructor
      · rw [← hu, List.length_map]
        simp [List.length_append, h1, h2, h3, h4, h5]
      · rw [← hu, List.all_map, List.all_eq_true]
        rw [List.all_eq_true] at hall
        intro c hc
        exact hexToLower_isLowerHex c (hall c hc)
    case isFalse _ => exact absurd h (by simp)
  case h_2 _ => exact absurd h (by simp)

/-- A successful uuid parse, whatever the accepted spelling, yields 32
lower-case hex digits. -/
theorem uuidParse_spec (cs u : List Char)
    (h : uuidParse cs = Option.some u) :
    u.length = 32 ∧ u.all isLowerHexChar = true := by
  unfold uuidParse at h
  split at h
  · exact parseHyphenated_spec _ _ h
  · split at h
    case h_1 rest =>
      split at h
      · exact parseHyphenated_spec _ _ h
      · exact absurd h (by simp)
    case h_2 =>
      split at h
      · exact parseSimple_spec _ _ h
      · exact parseHyphenated_spec _ _ h

/-- The canonical rendering of 32 digits has length 36. -/
theorem uuidToString_length (u : List Char) (hlen : u.length = 32) :
    (uuidToString u).length = 36 := by
  simp [uuidToString, List.length_append, List.length_take, List.length_drop,
    hlen]

/-- Every character of the canonical rendering is a lower-case hex
digit or a hyphen. -/
theorem uuidToString_alphabet (u : List Char)
    (hall : u.all isLowerHexChar = true) :
    (uuidToString u).all (fun c => isLowerHexChar c || c = '-') = true := by
  rw [List.all_eq_true] at hall ⊢
  intro c hc
  have hofu : ∀ d, d ∈ u → (isLowerHexChar d || decide (d = '-')) = true := by
    intro d hd
    simp [hall d hd]
  have hhy : (isLowerHexChar '-' || decide (('-' : Char) = '-')) = true := by
    decide
  simp only [uuidToString] at hc
  rcases List.mem_append.mp hc with hc | hc
  rotate_left
  · rcases List.mem_cons.mp hc with rfl | hc
    · exact hhy
    · exact hofu c (List.mem_of_mem_drop (List.mem_of_mem_drop
        (List.mem_of_mem_drop (List.mem_of_mem_drop hc))))
  rcases List.mem_append.mp hc with hc | hc
  rotate_left
  · rcases List.mem_cons.mp hc with rfl | hc
    · exact hhy
    · exact hofu c (List.mem_of_mem_drop (List.mem_of_mem_drop
        (List.mem_of_mem_drop (List.mem_of_mem_take hc))))
  rcases List.mem_append.mp hc with hc | hc
  rotate_left
  · rcases List.mem_cons.mp hc with rfl | hc
    · exact hhy
    · exact hofu c (List.mem_of_mem_drop (List.mem_of_mem_drop
        (List.mem_of_mem_take hc)))
  rcases List.mem_append.mp hc with hc | hc
  rotate_left
  · rcases List.mem_cons.mp hc with rfl | hc
    · exact hhy
    · exact hofu c (List.mem_of_mem_drop (List.mem_of_mem_take hc))
  · exact hofu c (List.mem_of_mem_take hc)

/-- Dropping the hyphens of the canonical rendering gives back exactly
the parsed digits. -/
theorem uuidToString_filter (u : List Char)
    (hall : u.all isLowerHexChar = true) :
    (uuidToString u).filter (fun c => c ≠ '-') = u := by
  rw [List.all_eq_true] at hall
  have hseg : ∀ (s : List Char), (∀ c ∈ s, c ∈ u) →
      s.filter (fun c => c ≠ '-') = s := by
    intro s hs
    rw [List.filter_eq_self]
    intro c hc
    simpa using isLowerHexChar_ne_hyphen c (hall c (hs c hc))
  simp only [uuidToString, List.filter_append, List.filter_cons]
  have hhy : (decide ¬(('-' : Char) = '-')) = false := by decide
  rw [hhy]
  simp only [Bool.false_eq_true, if_false]
  rw [hseg (u.take 8) (fun c hc => List.mem_of_mem_take hc),
    hseg ((u.drop 8).take 4)
      (fun c hc => List.mem_of_mem_drop (List.mem_of_mem_take hc)),
    hseg (((u.drop 8).drop 4).take 4)
      (fun c hc => List.mem_of_mem_drop (List.mem_of_mem_drop
        (List.mem_of_mem_take hc))),
    hseg ((((u.drop 8).drop 4).drop 4).take 4)
      (fun c hc => List.mem_of_mem_drop (List.mem_of_mem_drop
        (List.mem_of_mem_drop (List.mem_of_mem_take hc)))),
    hseg ((((u.drop 8).drop 4).drop 4).drop 4)
      (fun c hc => List.mem_of_mem_drop (List.mem_of_mem_drop
        (List.mem_of_mem_drop (List.mem_of_mem_drop hc))))]
  simp only [List.append_assoc]
  rw [List.take_append_drop, List.take_append_drop, List.take_append_drop,
    List.take_append_drop]

/-- C10: whatever uuid spelling `Zarinpal::new` or
`Zarinpal::new_with_client` accepts, the stored merchant id — the one
`merchant_id()` reports and request defaulting uses — is the canonical
rendering of the parsed UUID: the 32 parsed digits, lower-cased, with
hyphens at the 8-4-4-4-12 group boundaries (`uuidToString`), not the
caller's original string. -/
theorem C10_merchant_id_canonicalized (cs u : List Char)
    (h : uuidParse cs = Option.some u) :
    Zarinpal.new cs = Option.some ⟨uuidToString u, defaultBaseUrl⟩ ∧
    Zarinpal.new_with_client cs = Option.some ⟨uuidToString u, defaultBaseUrl⟩ ∧
    u.length = 32 ∧ u.all isLowerHexChar = true ∧
    (uuidToString u).length = 36 ∧
    (uuidToString u).all (fun c => isLowerHexChar c || c = '-') = true ∧
    (uuidToString u).filter (fun c => c ≠ '-') = u := by
  obtain ⟨hlen, hall⟩ := uuidParse_spec cs u h
  refine ⟨?_, ?_, hlen, hall, uuidToString_length u hlen,
    uuidToString_alphabet u hall, uuidToString_filter u hall⟩
  · simp [Zarinpal.new, h]
  · simp [Zarinpal.new_with_client, h]

/-- Witness for C10 at an upper-case hyphenated input: the constructor
accepts it, stores the lower-cased canonical rendering, and that stored
value differs character-wise from the constructor argument. -/
theorem C10_merchant_id_canonicalized_witness :
    uuidParse uuidUpperExample = Option.some uuidDigitsExample ∧
    Zarinpal.new uuidUpperExample =
      Option.some ⟨uuidToString uuidDigitsExample, defaultBaseUrl⟩ ∧
    uuidToString uuidDigitsExample ≠ uuidUpperExample := by
  refine ⟨by decide, ?_, by decide⟩
  exact (C10_merchant_id_canonicalized uuidUpperExample uuidDigitsExample
    (by decide)).1

end ZarinpalLib
